import Mathlib

/-!
Shallow embedding of the contaminant-explorer pipeline in
`src/streamlit_app.py`: the table loader/normalizer, the contaminant
filter, the station joiner and the trend aggregator.

Modelling conventions:
- A pandas cell is modelled at the granularity the script observes it:
  coordinate cells appear as `Option PdNum` (the result of
  `pandas.to_numeric(..., errors="coerce")`: `none` is NaN, i.e. a missing
  or non-numeric cell, and a parsed number may be a finite rational or one
  of the two float infinities, which `to_numeric` produces from cells such
  as "inf" and which `dropna` keeps), measurement cells as `Option Rat`
  (finite values as exact rationals; the claims evaluate measurements only
  on finite data), date cells as `Option Date` (the result of
  `pd.to_datetime(..., errors="coerce")`), string cells as `Option String`
  (`none` is NaN).
- Column presence is a `Bool` flag per required column on the CSV table
  (pandas `"col" in df.columns`).
- `streamlit.error(msg)` followed by `streamlit.stop()` is modelled as
  `Except.error` carrying the message.  The two occurrences written
  `pd.`/`st.` in the script are read as the `pandas`/`streamlit` modules
  used everywhere else in the file.
- pandas `Series.str.contains(pat, case=False, na=False)` treats `pat` as a
  regular expression searched case-insensitively anywhere in the string.
  The regex fragment that the claims exercise (literal characters plus the
  `.` wildcard) is embedded; every other character is treated as a literal.
-/

/-- Calendar date (the script only ever compares dates and extracts the
year/month pair, so a plain record with lexicographic order suffices). -/
structure Date where
  year : Int
  month : Nat
  day : Nat
deriving DecidableEq, Repr

/-- Lexicographic order on dates, as pandas datetime comparison behaves. -/
def dateLe (a b : Date) : Bool :=
  decide (a.year < b.year) ||
    (decide (a.year = b.year) &&
      (decide (a.month < b.month) ||
        (decide (a.month = b.month) && decide (a.day ≤ b.day))))

/-- A number as held in a float64 pandas column after `to_numeric`:
a finite value (modelled as an exact rational) or one of the two
infinities, which `to_numeric` produces from cells such as "inf" or
"-Infinity" and which, not being NaN, survive `dropna`. -/
inductive PdNum where
  | finite (q : Rat)
  | posInf
  | negInf
deriving DecidableEq, Repr

/-- Whether a float column entry is finite. -/
def PdNum.isFinite : PdNum → Bool
  | PdNum.finite _ => true
  | PdNum.posInf => false
  | PdNum.negInf => false

/-- Raw row of the uploaded station CSV, restricted to the four columns the
script reads.  Coordinate cells are shown after the `pandas.to_numeric`
coercion of lines 28-29: `none` is NaN (missing or non-numeric), a present
cell may be finite or infinite. -/
structure StationRow where
  ident : Option String
  name : Option String
  lat : Option PdNum
  lon : Option PdNum
deriving DecidableEq, Repr

/-- The uploaded station table: which of the relevant columns exist, plus
the rows (line 20, `pandas.read_csv(station_file)`). -/
structure StationCSV where
  hasIdent : Bool
  hasName : Bool
  hasLat : Bool
  hasLon : Bool
  rows : List StationRow
deriving DecidableEq, Repr

/-- Raw row of the uploaded results CSV, restricted to the four columns the
script reads.  The value cell is shown after the `pandas.to_numeric`
coercion of line 73, the date cell after the `pd.to_datetime` coercion of
line 48. -/
structure ResultRow where
  ident : Option String
  characteristic : Option String
  value : Option Rat
  date : Option Date
deriving DecidableEq, Repr

/-- The uploaded test-results table (line 21). -/
structure ResultsCSV where
  hasIdent : Bool
  hasCharacteristic : Bool
  hasValue : Bool
  hasDate : Bool
  rows : List ResultRow
deriving DecidableEq, Repr

/-- Errors surfaced with `streamlit.error(...)` followed by a stop; every
such message in the script reports a missing required column. -/
inductive AppError where
  | schemaError (msg : String)
deriving DecidableEq, Repr

/-- pandas `.astype(str)` on a cell: NaN prints as the string `"nan"`
(lines 39, 44, 58). -/
def astypeStr : Option String → String
  | none => "nan"
  | some s => s

/-- Normalized station record: after lines 27-44 the data kept from the
station table is the identifier column (as `str`) and numeric coordinates. -/
structure NormStation where
  ident : String
  lat : PdNum
  lon : PdNum
deriving DecidableEq, Repr

/-- Rows surviving `dropna(subset=["LatitudeMeasure", "LongitudeMeasure"])`
(line 30). -/
def coordsPresent (r : StationRow) : Bool :=
  r.lat.isSome && r.lon.isSome

/-- Lines 27-44: coordinate columns are required (else the line 32 error),
rows with a missing coordinate are dropped, and the identifier is the
`MonitoringLocationIdentifier` column as `str`, falling back to
`MonitoringLocationName` as `str`, else the line 41 error. -/
def normalizeStations (t : StationCSV) : Except AppError (List NormStation) :=
  if t.hasLat && t.hasLon then
    if t.hasIdent then
      Except.ok ((t.rows.filter coordsPresent).map
        (fun r => ⟨astypeStr r.ident, r.lat.getD (PdNum.finite 0), r.lon.getD (PdNum.finite 0)⟩))
    else if t.hasName then
      Except.ok ((t.rows.filter coordsPresent).map
        (fun r => ⟨astypeStr r.name, r.lat.getD (PdNum.finite 0), r.lon.getD (PdNum.finite 0)⟩))
    else
      Except.error (AppError.schemaError
        ("Station database must contain 'MonitoringLocationIdentifier' or 'MonitoringLocationName'."))
  else
    Except.error (AppError.schemaError
      ("Station database must include 'LatitudeMeasure' and 'LongitudeMeasure'."))

/-- Normalized result record: after lines 47-58 the identifier is a string
and the date column has been coerced. -/
structure NormResult where
  ident : String
  characteristic : Option String
  value : Option Rat
  date : Option Date
deriving DecidableEq, Repr

/-- Lines 47-58: the `ActivityStartDate` column is required (line 50
error), then the `MonitoringLocationIdentifier` column is required (line 55
error) and coerced to `str`. -/
def normalizeResults (t : ResultsCSV) : Except AppError (List NormResult) :=
  if t.hasDate then
    if t.hasIdent then
      Except.ok (t.rows.map
        (fun r => ⟨astypeStr r.ident, r.characteristic, r.value, r.date⟩))
    else
      Except.error (AppError.schemaError
        ("Test results database must contain 'MonitoringLocationIdentifier'."))
  else
    Except.error (AppError.schemaError
      ("Test results database must contain 'ActivityStartDate'."))

/-- Token of the embedded regex fragment: a literal character or the `.`
wildcard. -/
inductive RTok where
  | lit (c : Char)
  | dot
deriving DecidableEq, Repr

/-- Compile one pattern character: `.` is the wildcard, anything else
matches literally.  This compiles exactly the fragment of Python `re`
named in `pdStrContains`: it is faithful only for patterns whose sole
metacharacter is `.`; other metacharacters (`*`, `+`, `(`, ...) are NOT
modelled and a pattern containing one is outside the model. -/
def parseTok (c : Char) : RTok :=
  if c = '.' then RTok.dot else RTok.lit c

/-- Compile a pattern string into tokens. -/
def parsePat (s : String) : List RTok :=
  s.data.map parseTok

/-- Token-versus-character match under `re.IGNORECASE` (pandas
`case=False`); case folding is modelled on ASCII via `Char.toLower`. -/
def tokMatch : RTok → Char → Bool
  | RTok.lit a, c => a.toLower == c.toLower
  | RTok.dot, _ => true

/-- Match the whole token list against a prefix of the character list. -/
def matchHere : List RTok → List Char → Bool
  | [], _ => true
  | _ :: _, [] => false
  | t :: ts, c :: cs => tokMatch t c && matchHere ts cs

/-- Python `re.search`: try to match at every start position. -/
def reSearch (p : List RTok) : List Char → Bool
  | [] => matchHere p []
  | c :: cs => matchHere p (c :: cs) || reSearch p cs

/-- pandas `Series.str.contains(pat, case=False, na=False)` on one cell
(line 68): a missing cell never matches; otherwise the pattern is searched
as a case-insensitive regular expression.  Only the regex fragment whose
sole metacharacter is `.` is embedded: on patterns drawn from that
fragment (all patterns the theorems below evaluate, and every
metacharacter-free pattern, which Python `re` also matches literally)
this agrees with the source; for patterns containing other metacharacters
such as `*` or `(` the model makes no claim. -/
def pdStrContains (pat : String) (cell : Option String) : Bool :=
  match cell with
  | none => false
  | some h => reSearch (parsePat pat) h.data

/-- The metacharacters of Python regular expressions (`re` module): a
pattern containing none of these is matched purely literally by
`re.search`. -/
def regexMetachars : List Char :=
  ['.', '^', '$', '*', '+', '?', '{', '}', '[', ']', '\\', '|', '(', ')']

/-- Whether a pattern string is free of every Python regex metacharacter
(such a pattern is matched literally by the source's `str.contains`). -/
def noRegexMeta (s : String) : Bool :=
  s.data.all (fun c => !(regexMetachars.contains c))

/-- Modelled from the spec: case-insensitive match of the pattern against a
prefix of the text, both taken literally.  This definition follows the
wording of the specification (substring semantics) and is compared against
the regex semantics the source actually uses. -/
def ciStarts : List Char → List Char → Bool
  | [], _ => true
  | _ :: _, [] => false
  | a :: as, b :: bs => (a.toLower == b.toLower) && ciStarts as bs

/-- Modelled from the spec: case-insensitive literal substring containment
over character lists. -/
def ciContainsL (pat : List Char) : List Char → Bool
  | [] => ciStarts pat []
  | c :: cs => ciStarts pat (c :: cs) || ciContainsL pat cs

/-- Modelled from the spec: the specification says the characteristic name
must contain the contaminant name as a case-insensitive substring; this is
that relation, for comparison with `pdStrContains`. -/
def ciContains (pat hay : String) : Bool :=
  ciContainsL pat.data hay.data

/-- User-chosen filter parameters: the contaminant selected at line 65, the
measurement range of line 83 and the date range of line 94. -/
structure Criteria where
  contaminant : String
  lo : Rat
  hi : Rat
  dstart : Date
  dend : Date
deriving DecidableEq, Repr

/-- Line 68: keep rows whose characteristic matches the selected
contaminant (`str.contains`, case-insensitive, NaN never matches). -/
def filterByContaminant (rows : List NormResult) (pat : String) : List NormResult :=
  rows.filter (fun r => pdStrContains pat r.characteristic)

/-- Line 74: `dropna(subset=["ResultMeasureValue"])` after the numeric
coercion. -/
def dropnaValue (rows : List NormResult) : List NormResult :=
  rows.filter (fun r => r.value.isSome)

/-- Line 87: `dropna(subset=["ActivityStartDate"])`. -/
def dropnaDate (rows : List NormResult) : List NormResult :=
  rows.filter (fun r => r.date.isSome)

/-- Lines 97-98: the measurement lies inside the selected range (a missing
value compares false in pandas). -/
def valueInRange (lo hi : Rat) (r : NormResult) : Bool :=
  match r.value with
  | none => false
  | some v => decide (lo ≤ v) && decide (v ≤ hi)

/-- Line 99: `between` on the date column, inclusive at both ends (a
missing date compares false). -/
def dateInRange (a b : Date) (r : NormResult) : Bool :=
  match r.date with
  | none => false
  | some d => dateLe a d && dateLe d b

/-- Lines 96-100: the boolean-mask selection combining the value range and
the date range. -/
def applyRange (lo hi : Rat) (a b : Date) (rows : List NormResult) : List NormResult :=
  rows.filter (fun r => valueInRange lo hi r && dateInRange a b r)

/-- The filtered result set as of line 100: contaminant match (line 68),
value coercion and drop (lines 73-74), date drop (line 87), then the range
mask (lines 96-100).  Row order of the input is preserved throughout. -/
def filteredResults (rows : List NormResult) (c : Criteria) : List NormResult :=
  applyRange c.lo c.hi c.dstart c.dend
    (dropnaDate (dropnaValue (filterByContaminant rows c.contaminant)))

/-- pandas `Series.min()` on an exact column: `none` on an empty series. -/
def ratMinL : List Rat → Option Rat
  | [] => none
  | v :: vs =>
    some (match ratMinL vs with
      | none => v
      | some m => min v m)

/-- pandas `Series.max()` on an exact column. -/
def ratMaxL : List Rat → Option Rat
  | [] => none
  | v :: vs =>
    some (match ratMaxL vs with
      | none => v
      | some m => max v m)

/-- The value column of `filtered_results` as it stands at line 78:
contaminant-matched rows after the value coercion and drop. -/
def valueSeries (rows : List NormResult) (pat : String) : List Rat :=
  (dropnaValue (filterByContaminant rows pat)).filterMap (fun r => r.value)

/-- Lines 77-81: the default slider bounds are the min/max of the present
measurement values among contaminant-matched rows (before any date
filtering); on an empty set they fall back to `(0, 1)`. -/
def defaultValueRange (rows : List NormResult) (pat : String) : Rat × Rat :=
  match ratMinL (valueSeries rows pat), ratMaxL (valueSeries rows pat) with
  | some a, some b => (a, b)
  | _, _ => (0, 1)

/-- Minimum of a list of dates under `dateLe`. -/
def dateMinL : List Date → Option Date
  | [] => none
  | d :: ds =>
    some (match dateMinL ds with
      | none => d
      | some m => if dateLe d m then d else m)

/-- Maximum of a list of dates under `dateLe`. -/
def dateMaxL : List Date → Option Date
  | [] => none
  | d :: ds =>
    some (match dateMaxL ds with
      | none => d
      | some m => if dateLe m d then d else m)

/-- The date column of `filtered_results` as it stands at line 89:
contaminant-matched, value-present rows after the date drop of line 87. -/
def dateSeries (rows : List NormResult) (pat : String) : List Date :=
  (dropnaDate (dropnaValue (filterByContaminant rows pat))).filterMap (fun r => r.date)

/-- Lines 87-93: the default date-input bounds are the min/max observation
date among contaminant-matched, value-present, date-present rows; on an
empty set both fall back to today. -/
def defaultDateRange (rows : List NormResult) (pat : String) (today : Date) : Date × Date :=
  match dateMinL (dateSeries rows pat), dateMaxL (dateSeries rows pat) with
  | some a, some b => (a, b)
  | _, _ => (today, today)

/-- Helper for `pdUnique`: keep the first occurrence of each element not
seen yet. -/
def pdUniqueAux [DecidableEq α] (seen : List α) : List α → List α
  | [] => []
  | a :: as =>
    if a ∈ seen then pdUniqueAux seen as
    else a :: pdUniqueAux (a :: seen) as

/-- pandas `Series.unique()`: distinct values in first-occurrence order
(line 103). -/
def pdUnique [DecidableEq α] (l : List α) : List α :=
  pdUniqueAux [] l

/-- Line 103: the distinct station identifiers of the filtered results. -/
def selectedStations (filtered : List NormResult) : List String :=
  pdUnique (filtered.map (fun r => r.ident))

/-- Line 107: `isin` keeps every station row whose identifier occurs among
the selected identifiers, in station-table order. -/
def stationSubset (stations : List NormStation) (filtered : List NormResult) : List NormStation :=
  stations.filter (fun s => decide (s.ident ∈ selectedStations filtered))

/-- Grouping key of line 127: station identifier and calendar month (the
`to_period("M")` of the observation date, i.e. its year/month pair). -/
abbrev TKey := String × Int × Nat

/-- Key of one result row; the date is present at the grouping site (the
line 87 dropna precedes it). -/
def rowKey (r : NormResult) : TKey :=
  (r.ident,
    match r.date with
    | some d => (d.year, d.month)
    | none => (0, 0))

/-- Order in which pandas `groupby(..., sort=True)` lists the group keys:
lexicographic on identifier then period. -/
def keyLE (a b : TKey) : Prop :=
  a.1 < b.1 ∨ (a.1 = b.1 ∧ (a.2.1 < b.2.1 ∨ (a.2.1 = b.2.1 ∧ a.2.2 ≤ b.2.2)))

instance : DecidableRel keyLE := by
  intro a b
  unfold keyLE
  infer_instance

/-- One row of `trend_df` (lines 127-128): identifier, month re-expanded to
its first-of-month timestamp, and the group mean. -/
structure TrendPoint where
  ident : String
  month : Date
  meanValue : Rat
deriving DecidableEq, Repr

/-- Key of a trend point, for relating it back to its group. -/
def pointKey (p : TrendPoint) : TKey :=
  (p.ident, p.month.year, p.month.month)

/-- pandas `GroupBy.mean()` on the value column: sum of the non-missing
values over their count. -/
def groupMean (g : List NormResult) : Rat :=
  let vs := g.filterMap (fun r => r.value)
  vs.sum / (vs.length : Rat)

/-- The trend point of one group key. -/
def mkPoint (rows : List NormResult) (k : TKey) : TrendPoint :=
  ⟨k.1, ⟨k.2.1, k.2.2, 1⟩, groupMean (rows.filter (fun r => decide (rowKey r = k)))⟩

/-- Lines 126-128: group the filtered rows by (identifier, month), take the
mean value per group (group keys listed in sorted order, pandas
`sort=True`), and turn the period back into a first-of-month date. -/
def trendDf (rows : List NormResult) : List TrendPoint :=
  (List.insertionSort keyLE (pdUnique (rows.map rowKey))).map (mkPoint rows)

/-- Codepoint-lexicographic strict order on character lists (Python string
comparison). -/
def charsLt : List Char → List Char → Bool
  | [], [] => false
  | [], _ :: _ => true
  | _ :: _, [] => false
  | a :: as, b :: bs =>
    decide (a.val < b.val) || (a == b && charsLt as bs)

/-- Non-strict string order used to model Python `sorted`. -/
def strLeB (a b : String) : Bool :=
  charsLt a.data b.data || a == b

/-- Python `sorted` on strings. -/
def sortedStrings (l : List String) : List String :=
  List.insertionSort (fun a b => strLeB a b = true) l

/-- Line 64: the selectable contaminants are the sorted distinct
non-missing characteristic names. -/
def uniqueContaminants (rows : List NormResult) : List String :=
  sortedStrings (pdUnique (rows.filterMap (fun r => r.characteristic)))

/-- The state the loader leaves behind: the two normalized tables held in
`station_df` and `results_df`. -/
structure PipeState where
  stationDf : List NormStation
  resultsDf : List NormResult
deriving DecidableEq, Repr

/-- The derived views a filter run produces for the presentation layer. -/
structure ViewOutputs where
  filtered : List NormResult
  subset : List NormStation
  trend : List TrendPoint
deriving DecidableEq, Repr

/-- pandas `.copy()` at line 68: the filter works on a fresh frame, so the
later column assignments (lines 73, 126) touch only the copy. -/
def copyDF (l : List NormResult) : List NormResult := l

/-- One filter/join/aggregate run (lines 68-128) over the loaded tables:
it reads the state and returns the derived views together with the state
as it stands after the run. -/
def runFilters (st : PipeState) (c : Criteria) : ViewOutputs × PipeState :=
  let fr := filteredResults (copyDF st.resultsDf) c
  (⟨fr, stationSubset st.stationDf fr, trendDf fr⟩, st)

/-- The whole pipeline from uploaded CSVs to the derived views, with every
required-column check in the order the script performs it (lines 27, 36,
47, 54, 61, 70). -/
def runAll (s : StationCSV) (r : ResultsCSV) (c : Criteria) : Except AppError ViewOutputs :=
  match normalizeStations s with
  | Except.error e => Except.error e
  | Except.ok stations =>
    match normalizeResults r with
    | Except.error e => Except.error e
    | Except.ok results =>
      if r.hasCharacteristic then
        let afterContaminant := filterByContaminant results c.contaminant
        if r.hasValue then
          let fr := applyRange c.lo c.hi c.dstart c.dend
            (dropnaDate (dropnaValue afterContaminant))
          Except.ok ⟨fr, stationSubset stations fr, trendDf fr⟩
        else
          Except.error (AppError.schemaError
            ("Test results database must contain 'ResultMeasureValue'."))
      else
        Except.error (AppError.schemaError
          ("Test results database must contain 'CharacteristicName'."))

/-! ## Basic lemmas about the embedded operations -/

theorem mem_pdUniqueAux [DecidableEq α] (a : α) (l : List α) :
    ∀ seen : List α, a ∈ pdUniqueAux seen l ↔ a ∈ l ∧ a ∉ seen := by
  induction l with
  | nil =>
    intro seen
    simp [pdUniqueAux]
  | cons b bs ih =>
    intro seen
    by_cases hb : b ∈ seen
    · rw [pdUniqueAux, if_pos hb, ih seen, List.mem_cons]
      constructor
      · exact fun h => ⟨Or.inr h.1, h.2⟩
      · rintro ⟨rfl | h1, h2⟩
        · exact absurd hb h2
        · exact ⟨h1, h2⟩
    · rw [pdUniqueAux, if_neg hb, List.mem_cons, List.mem_cons, ih (b :: seen)]
      constructor
      · rintro (rfl | ⟨h1, h2⟩)
        · exact ⟨Or.inl rfl, hb⟩
        · exact ⟨Or.inr h1, fun hs => h2 (List.mem_cons_of_mem b hs)⟩
      · rintro ⟨rfl | h1, h2⟩
        · exact Or.inl rfl
        · by_cases hab : a = b
          · exact Or.inl hab
          · exact Or.inr ⟨h1, fun hs => (List.mem_cons.mp hs).elim hab h2⟩

theorem nodup_pdUniqueAux [DecidableEq α] (l : List α) :
    ∀ seen : List α, (pdUniqueAux seen l).Nodup := by
  induction l with
  | nil =>
    intro seen
    simp [pdUniqueAux]
  | cons b bs ih =>
    intro seen
    by_cases hb : b ∈ seen
    · rw [pdUniqueAux, if_pos hb]
      exact ih seen
    · rw [pdUniqueAux, if_neg hb, List.nodup_cons]
      refine ⟨fun hmem => ?_, ih (b :: seen)⟩
      exact ((mem_pdUniqueAux b bs (b :: seen)).mp hmem).2 (List.mem_cons_self b seen)

theorem mem_pdUnique [DecidableEq α] (a : α) (l : List α) : a ∈ pdUnique l ↔ a ∈ l := by
  rw [pdUnique, mem_pdUniqueAux]
  simp

theorem nodup_pdUnique [DecidableEq α] (l : List α) : (pdUnique l).Nodup :=
  nodup_pdUniqueAux l []

theorem pdUnique_perm_dedup [DecidableEq α] (l : List α) : (pdUnique l).Perm l.dedup := by
  rw [List.perm_ext_iff_of_nodup (nodup_pdUnique l) l.nodup_dedup]
  intro a
  rw [mem_pdUnique, List.mem_dedup]

theorem valueInRange_iff (lo hi : Rat) (r : NormResult) :
    valueInRange lo hi r = true ↔ ∃ v, r.value = some v ∧ lo ≤ v ∧ v ≤ hi := by
  cases hv : r.value with
  | none => simp [valueInRange, hv]
  | some v => simp [valueInRange, hv]

theorem dateInRange_iff (a b : Date) (r : NormResult) :
    dateInRange a b r = true ↔
      ∃ d, r.date = some d ∧ dateLe a d = true ∧ dateLe d b = true := by
  cases hd : r.date with
  | none => simp [dateInRange, hd]
  | some d => simp [dateInRange, hd]

theorem mem_filteredResults (rows : List NormResult) (c : Criteria) (r : NormResult) :
    r ∈ filteredResults rows c ↔
      r ∈ rows ∧ pdStrContains c.contaminant r.characteristic = true ∧
        (∃ v, r.value = some v ∧ c.lo ≤ v ∧ v ≤ c.hi) ∧
        (∃ d, r.date = some d ∧ dateLe c.dstart d = true ∧ dateLe d c.dend = true) := by
  simp only [filteredResults, applyRange, dropnaDate, dropnaValue, filterByContaminant,
    List.mem_filter, Bool.and_eq_true, valueInRange_iff, dateInRange_iff]
  constructor
  · rintro ⟨⟨⟨⟨hmem, hchar⟩, hval⟩, hdate⟩, hv, hd⟩
    exact ⟨hmem, hchar, hv, hd⟩
  · rintro ⟨hmem, hchar, ⟨v, hv, hlo, hhi⟩, d, hd, hd1, hd2⟩
    exact ⟨⟨⟨⟨hmem, hchar⟩, by simp [hv]⟩, by simp [hd]⟩, ⟨v, hv, hlo, hhi⟩, d, hd, hd1, hd2⟩

theorem filteredResults_sublist (rows : List NormResult) (c : Criteria) :
    List.Sublist (filteredResults rows c) rows := by
  unfold filteredResults applyRange dropnaDate dropnaValue filterByContaminant
  exact (List.filter_sublist _).trans ((List.filter_sublist _).trans
    ((List.filter_sublist _).trans (List.filter_sublist _)))

theorem mem_filtered_value_isSome (rows : List NormResult) (c : Criteria) (r : NormResult)
    (h : r ∈ filteredResults rows c) : r.value.isSome = true := by
  rcases (mem_filteredResults rows c r).mp h with ⟨-, -, ⟨v, hv, -⟩, -⟩
  simp [hv]

theorem matchHere_noDot :
    ∀ ps hs : List Char, '.' ∉ ps → matchHere (ps.map parseTok) hs = ciStarts ps hs
  | [], hs, _ => by cases hs <;> rfl
  | p :: ps, [], _ => rfl
  | p :: ps, c :: cs, h => by
    have hpne : p ≠ '.' := fun hEq => h (hEq ▸ List.mem_cons_self p ps)
    have ih := matchHere_noDot ps cs (fun hm => h (List.mem_cons_of_mem p hm))
    simp [matchHere, ciStarts, List.map_cons, parseTok, if_neg hpne, tokMatch, ih]

theorem reSearch_noDot :
    ∀ (ps hs : List Char), '.' ∉ ps → reSearch (ps.map parseTok) hs = ciContainsL ps hs
  | ps, [], h => by
    simp [reSearch, ciContainsL, matchHere_noDot ps [] h]
  | ps, c :: cs, h => by
    simp [reSearch, ciContainsL, matchHere_noDot ps (c :: cs) h, reSearch_noDot ps cs h]

theorem pdStrContains_noDot (p hay : String) (hnd : '.' ∉ p.data) :
    pdStrContains p (some hay) = ciContains p hay := by
  simp [pdStrContains, parsePat, ciContains, reSearch_noDot p.data hay.data hnd]

theorem noDot_of_noRegexMeta (s : String) (h : noRegexMeta s = true) : '.' ∉ s.data := by
  intro hmem
  rw [noRegexMeta, List.all_eq_true] at h
  have hdot := h '.' hmem
  exact absurd hdot (by decide)

theorem ratMinL_eq_none (l : List Rat) : ratMinL l = none ↔ l = [] := by
  cases l with
  | nil => simp [ratMinL]
  | cons v vs => simp [ratMinL]

theorem ratMaxL_eq_none (l : List Rat) : ratMaxL l = none ↔ l = [] := by
  cases l with
  | nil => simp [ratMaxL]
  | cons v vs => simp [ratMaxL]

theorem ratMinL_spec : ∀ (l : List Rat) (m : Rat), ratMinL l = some m →
    m ∈ l ∧ ∀ v ∈ l, m ≤ v
  | [], m, h => by cases h
  | v :: vs, m, h => by
    rw [ratMinL] at h
    cases hvs : ratMinL vs with
    | none =>
      have hnil : vs = [] := (ratMinL_eq_none vs).mp hvs
      subst hnil
      simp only [ratMinL, Option.some.injEq] at h
      subst h
      simp
    | some m2 =>
      rw [hvs] at h
      simp only [Option.some.injEq] at h
      subst h
      have ih := ratMinL_spec vs m2 hvs
      constructor
      · rcases le_total v m2 with hle | hle
        · rw [min_eq_left hle]
          exact List.mem_cons_self v vs
        · rw [min_eq_right hle]
          exact List.mem_cons_of_mem v ih.1
      · intro w hw
        rcases List.mem_cons.mp hw with rfl | hw2
        · exact min_le_left _ _
        · exact le_trans (min_le_right v m2) (ih.2 w hw2)

theorem ratMaxL_spec : ∀ (l : List Rat) (m : Rat), ratMaxL l = some m →
    m ∈ l ∧ ∀ v ∈ l, v ≤ m
  | [], m, h => by cases h
  | v :: vs, m, h => by
    rw [ratMaxL] at h
    cases hvs : ratMaxL vs with
    | none =>
      have hnil : vs = [] := (ratMaxL_eq_none vs).mp hvs
      subst hnil
      simp only [ratMaxL, Option.some.injEq] at h
      subst h
      simp
    | some m2 =>
      rw [hvs] at h
      simp only [Option.some.injEq] at h
      subst h
      have ih := ratMaxL_spec vs m2 hvs
      constructor
      · rcases le_total v m2 with hle | hle
        · rw [max_eq_right hle]
          exact List.mem_cons_of_mem v ih.1
        · rw [max_eq_left hle]
          exact List.mem_cons_self v vs
      · intro w hw
        rcases List.mem_cons.mp hw with rfl | hw2
        · exact le_max_left _ _
        · exact le_trans (ih.2 w hw2) (le_max_right v m2)

theorem dateLe_refl (a : Date) : dateLe a a = true := by
  simp [dateLe]

theorem dateLe_total (a b : Date) : dateLe a b = true ∨ dateLe b a = true := by
  simp only [dateLe, Bool.or_eq_true, Bool.and_eq_true, decide_eq_true_eq]
  omega

theorem dateLe_trans (a b c : Date) (hab : dateLe a b = true) (hbc : dateLe b c = true) :
    dateLe a c = true := by
  simp only [dateLe, Bool.or_eq_true, Bool.and_eq_true, decide_eq_true_eq] at hab hbc ⊢
  omega

theorem dateMinL_eq_none (l : List Date) : dateMinL l = none ↔ l = [] := by
  cases l with
  | nil => simp [dateMinL]
  | cons d ds => simp [dateMinL]

theorem dateMaxL_eq_none (l : List Date) : dateMaxL l = none ↔ l = [] := by
  cases l with
  | nil => simp [dateMaxL]
  | cons d ds => simp [dateMaxL]

theorem dateMinL_spec : ∀ (l : List Date) (m : Date), dateMinL l = some m →
    m ∈ l ∧ ∀ d ∈ l, dateLe m d = true
  | [], m, h => by cases h
  | d :: ds, m, h => by
    rw [dateMinL] at h
    cases hds : dateMinL ds with
    | none =>
      have hnil : ds = [] := (dateMinL_eq_none ds).mp hds
      subst hnil
      simp only [dateMinL, Option.some.injEq] at h
      subst h
      simp [dateLe_refl]
    | some m2 =>
      rw [hds] at h
      simp only [Option.some.injEq] at h
      subst h
      have ih := dateMinL_spec ds m2 hds
      by_cases hle : dateLe d m2 = true
      · rw [if_pos hle]
        refine ⟨List.mem_cons_self d ds, ?_⟩
        intro w hw
        rcases List.mem_cons.mp hw with rfl | hw2
        · exact dateLe_refl w
        · exact dateLe_trans d m2 w hle (ih.2 w hw2)
      · rw [if_neg hle]
        have hge : dateLe m2 d = true := (dateLe_total d m2).resolve_left hle
        refine ⟨List.mem_cons_of_mem d ih.1, ?_⟩
        intro w hw
        rcases List.mem_cons.mp hw with rfl | hw2
        · exact hge
        · exact ih.2 w hw2

theorem dateMaxL_spec : ∀ (l : List Date) (m : Date), dateMaxL l = some m →
    m ∈ l ∧ ∀ d ∈ l, dateLe d m = true
  | [], m, h => by cases h
  | d :: ds, m, h => by
    rw [dateMaxL] at h
    cases hds : dateMaxL ds with
    | none =>
      have hnil : ds = [] := (dateMaxL_eq_none ds).mp hds
      subst hnil
      simp only [dateMaxL, Option.some.injEq] at h
      subst h
      simp [dateLe_refl]
    | some m2 =>
      rw [hds] at h
      simp only [Option.some.injEq] at h
      subst h
      have ih := dateMaxL_spec ds m2 hds
      by_cases hle : dateLe m2 d = true
      · rw [if_pos hle]
        refine ⟨List.mem_cons_self d ds, ?_⟩
        intro w hw
        rcases List.mem_cons.mp hw with rfl | hw2
        · exact dateLe_refl w
        · exact dateLe_trans w m2 d (ih.2 w hw2) hle
      · rw [if_neg hle]
        have hge : dateLe d m2 = true := (dateLe_total m2 d).resolve_left hle
        refine ⟨List.mem_cons_of_mem d ih.1, ?_⟩
        intro w hw
        rcases List.mem_cons.mp hw with rfl | hw2
        · exact hge
        · exact ih.2 w hw2

theorem count_ident_filter (sel : List String) (i : String) (hi : i ∈ sel)
    (stations : List NormStation) :
    ((stations.filter (fun s => decide (s.ident ∈ sel))).map (fun s => s.ident)).count i
      = (stations.map (fun s => s.ident)).count i := by
  induction stations with
  | nil => rfl
  | cons s ss ih =>
    by_cases hsi : s.ident = i
    · have hmem : decide (s.ident ∈ sel) = true := by simp [hsi, hi]
      simp [List.filter_cons, hmem, List.count_cons, ih, hsi, hi]
    · by_cases hmem : s.ident ∈ sel
      · simp [List.filter_cons, hmem, List.count_cons, ih, hsi]
      · simp [List.filter_cons, hmem, List.count_cons, ih, hsi]

theorem length_filterMap_value (l : List NormResult)
    (h : ∀ r ∈ l, (r.value).isSome = true) :
    (l.filterMap (fun r => r.value)).length = l.length := by
  induction l with
  | nil => rfl
  | cons r rs ih =>
    have hr : (r.value).isSome = true := h r (List.mem_cons_self r rs)
    cases hv : r.value with
    | none =>
      rw [hv] at hr
      cases hr
    | some v =>
      simp [List.filterMap_cons, hv, ih (fun x hx => h x (List.mem_cons_of_mem r hx))]

theorem pointKey_mkPoint (rows : List NormResult) (k : TKey) :
    pointKey (mkPoint rows k) = k := by
  cases k with
  | mk s ym =>
    cases ym with
    | mk y m => rfl

theorem trendDf_map_pointKey (rows : List NormResult) :
    (trendDf rows).map pointKey
      = List.insertionSort keyLE (pdUnique (rows.map rowKey)) := by
  unfold trendDf
  rw [List.map_map]
  have hid : ∀ k ∈ List.insertionSort keyLE (pdUnique (rows.map rowKey)),
      (pointKey ∘ mkPoint rows) k = id k := by
    intro k hk
    simp [Function.comp, pointKey_mkPoint]
  rw [List.map_congr_left hid, List.map_id]

theorem length_filter_rowKey (l : List NormResult) (k : TKey) :
    (l.filter (fun r => decide (rowKey r = k))).length
      = ((l.map rowKey).filter (fun x => decide (x = k))).length := by
  rw [← List.countP_eq_length_filter, ← List.countP_eq_length_filter, List.countP_map]
  refine List.countP_congr ?_
  intro r hr
  simp only [Function.comp_apply]

theorem sum_filter_dedup_length [DecidableEq α] (l : List α) :
    (l.dedup.map (fun k => (l.filter (fun x => decide (x = k))).length)).sum = l.length := by
  rw [← List.sum_map_count_dedup_eq_length l]
  congr 1
  refine List.map_congr_left ?_
  intro k hk
  rw [← List.countP_eq_length_filter, List.count]
  refine List.countP_congr ?_
  intro x hx
  simp [beq_iff_eq]

theorem normalizeStations_ok_flags (t : StationCSV) (out : List NormStation)
    (h : normalizeStations t = Except.ok out) :
    t.hasLat = true ∧ t.hasLon = true ∧ (t.hasIdent = true ∨ t.hasName = true) := by
  cases hLat : t.hasLat <;> cases hLon : t.hasLon <;> cases hI : t.hasIdent <;>
      cases hN : t.hasName <;>
    simp_all [normalizeStations]

theorem normalizeResults_ok_flags (t : ResultsCSV) (out : List NormResult)
    (h : normalizeResults t = Except.ok out) :
    t.hasDate = true ∧ t.hasIdent = true := by
  cases hD : t.hasDate <;> cases hI : t.hasIdent <;>
    simp_all [normalizeResults]

/-! ## Claim theorems -/

/-- Concrete inputs for claim C1: the table offers both "Lead" and "L.ad"
as characteristic names, so "L.ad" is a selectable contaminant. -/
def c1RowLead : NormResult := ⟨"S1", some ("Lead"), some 5, some ⟨2020, 1, 15⟩⟩

/-- Second row of the C1 example, carrying the characteristic "L.ad". -/
def c1RowDot : NormResult := ⟨"S2", some ("L.ad"), some 3, some ⟨2020, 2, 1⟩⟩

/-- The C1 example table. -/
def c1Rows : List NormResult := [c1RowLead, c1RowDot]

/-- The C1 filter criteria: contaminant "L.ad", value range [0, 10], date
range [2020-01-01, 2020-12-31]. -/
def c1Crit : Criteria := ⟨"L.ad", 0, 10, ⟨2020, 1, 1⟩, ⟨2020, 12, 31⟩⟩

/-- Claim C1, counterexample: with contaminant "L.ad" (a selectable
characteristic name of the table), the row whose characteristic is "Lead"
appears in the filtered result set although "Lead" does not contain "L.ad"
as a case-insensitive substring — the claim's substring condition is
violated by a row of the filtered set, because the source treats the
contaminant as a regular expression. -/
theorem filter_substring_cx :
    c1Crit.contaminant ∈ uniqueContaminants c1Rows ∧
    c1RowLead ∈ filteredResults c1Rows c1Crit ∧
    c1RowLead.characteristic = some ("Lead") ∧
    ciContains c1Crit.contaminant ("Lead") = false := by
  decide

/-- Claim C1 (amended): a row is in the filtered result set exactly when it
is a row of the table whose characteristic name matches the selected
contaminant name under the filter's own match predicate — the contaminant
interpreted as a case-insensitive regular expression, missing names never
matching — whose measured value is present and lies within [min, max]
inclusive, and whose observation date is present and lies within
[start, end] inclusive; moreover, for contaminant names free of every
Python regex metacharacter the regex match coincides with case-insensitive
substring containment. -/
theorem filter_regex_semantics (rows : List NormResult) (c : Criteria) (r : NormResult) :
    (r ∈ filteredResults rows c ↔
      r ∈ rows ∧ pdStrContains c.contaminant r.characteristic = true ∧
        (∃ v, r.value = some v ∧ c.lo ≤ v ∧ v ≤ c.hi) ∧
        (∃ d, r.date = some d ∧ dateLe c.dstart d = true ∧ dateLe d c.dend = true)) ∧
    (∀ pat hay : String, noRegexMeta pat = true →
      pdStrContains pat (some hay) = ciContains pat hay) :=
  ⟨mem_filteredResults rows c r,
    fun pat hay hnm => pdStrContains_noDot pat hay (noDot_of_noRegexMeta pat hnm)⟩

/-- Claim C1, witness: the amended characterization applied at a concrete
row, table and criteria. -/
theorem filter_regex_semantics_wit :
    c1RowLead ∈ filteredResults c1Rows c1Crit :=
  (filter_regex_semantics c1Rows c1Crit c1RowLead).1.mpr
    ⟨by decide, by decide,
      ⟨5, rfl, by decide, by decide⟩,
      ⟨⟨2020, 1, 15⟩, rfl, by decide, by decide⟩⟩

/-- Concrete inputs for claim C10, mirroring the C1 example. -/
def c10RowLead : NormResult := ⟨"S1", some ("Lead"), some 5, some ⟨2020, 1, 15⟩⟩

/-- Second row of the C10 example. -/
def c10RowDot : NormResult := ⟨"S2", some ("L.ad"), some 3, some ⟨2020, 2, 1⟩⟩

/-- The C10 example table. -/
def c10Rows : List NormResult := [c10RowLead, c10RowDot]

/-- The C10 filter criteria. -/
def c10Crit : Criteria := ⟨"L.ad", 0, 10, ⟨2020, 1, 1⟩, ⟨2020, 12, 31⟩⟩

/-- Claim C10: the contaminant match interprets the selected name as a
regular-expression pattern: for the selectable contaminant name "L.ad"
(which contains the metacharacter '.'), the row whose characteristic name
"Lead" does not contain "L.ad" as a literal substring is nevertheless
included in the filtered set. -/
theorem regex_metachar_match :
    "L.ad" ∈ uniqueContaminants c10Rows ∧
    c10RowLead ∈ filteredResults c10Rows c10Crit ∧
    ciContains ("L.ad") ("Lead") = false ∧
    c10RowLead.characteristic = some ("Lead") := by
  decide

/-- Station table for the C2 counterexample: two distinct station rows
sharing the identifier "S1" (the spec allows duplicate identifiers in the
station table). -/
def c2xStations : List NormStation :=
  [⟨"S1", PdNum.finite 40, PdNum.finite (-74)⟩, ⟨"S1", PdNum.finite 41, PdNum.finite (-75)⟩]

/-- Result rows for the C2 counterexample. -/
def c2xRows : List NormResult := [⟨"S1", some ("Lead"), some 5, some ⟨2020, 1, 15⟩⟩]

/-- Criteria for the C2 counterexample. -/
def c2xCrit : Criteria := ⟨"Lead", 0, 10, ⟨2020, 1, 1⟩, ⟨2020, 12, 31⟩⟩

/-- Claim C2, counterexample: the identifier "S1" occurs in the filtered
results and in the station table, yet it appears twice — not exactly once —
in the joined subset, because `isin` keeps every station row bearing a
selected identifier. -/
theorem join_unique_cx :
    "S1" ∈ (filteredResults c2xRows c2xCrit).map (fun r => r.ident) ∧
    "S1" ∈ c2xStations.map (fun s => s.ident) ∧
    ((stationSubset c2xStations (filteredResults c2xRows c2xCrit)).map
        (fun s => s.ident)).count ("S1") = 2 := by
  decide

/-- Claim C2 (amended): every station in the joined subset has an
identifier equal to the station identifier of at least one filtered result
row; every identifier occurring in the filtered results appears in the
joined subset exactly as many times as station rows bear it in the
StationTable (hence exactly once when station identifiers are unique); and
the subset preserves StationTable input order. -/
theorem join_soundness_counts (stations : List NormStation) (rows : List NormResult)
    (c : Criteria) :
    (∀ s ∈ stationSubset stations (filteredResults rows c),
        ∃ r ∈ filteredResults rows c, r.ident = s.ident) ∧
    (∀ i : String, i ∈ (filteredResults rows c).map (fun r => r.ident) →
        ((stationSubset stations (filteredResults rows c)).map (fun s => s.ident)).count i
          = (stations.map (fun s => s.ident)).count i) ∧
    List.Sublist (stationSubset stations (filteredResults rows c)) stations := by
  refine ⟨?_, ?_, List.filter_sublist stations⟩
  · intro s hs
    have hsel : s.ident ∈ selectedStations (filteredResults rows c) := by
      have := (List.mem_filter.mp hs).2
      exact of_decide_eq_true this
    have hmem : s.ident ∈ (filteredResults rows c).map (fun r => r.ident) :=
      (mem_pdUnique _ _).mp hsel
    rcases List.mem_map.mp hmem with ⟨r, hr, hri⟩
    exact ⟨r, hr, hri⟩
  · intro i hi
    have hsel : i ∈ selectedStations (filteredResults rows c) :=
      (mem_pdUnique _ _).mpr hi
    exact count_ident_filter (selectedStations (filteredResults rows c)) i hsel stations

/-- Station table for the C2 witness. -/
def c2wStations : List NormStation :=
  [⟨"S1", PdNum.finite 40, PdNum.finite (-74)⟩, ⟨"S2", PdNum.finite 41, PdNum.finite (-75)⟩]

/-- Result rows for the C2 witness. -/
def c2wRows : List NormResult := [⟨"S1", some ("Lead"), some 5, some ⟨2020, 1, 15⟩⟩]

/-- Criteria for the C2 witness. -/
def c2wCrit : Criteria := ⟨"Lead", 0, 10, ⟨2020, 1, 1⟩, ⟨2020, 12, 31⟩⟩

/-- Claim C2, witness: the multiplicity equation of the amended claim at a
concrete instance. -/
theorem join_soundness_counts_wit :
    ((stationSubset c2wStations (filteredResults c2wRows c2wCrit)).map
        (fun s => s.ident)).count ("S1")
      = (c2wStations.map (fun s => s.ident)).count ("S1") :=
  (join_soundness_counts c2wStations c2wRows c2wCrit).2.1 ("S1") (by decide)

/-- Claim C3: the trend output has exactly one point per non-empty
(station, month) group of the filtered rows — its keys are distinct and
are exactly the keys occurring among the filtered rows; each point's mean
times its group size equals the sum of the group's measured values (i.e.
the mean is the arithmetic mean of the group); and the group sizes sum to
the number of filtered rows. -/
theorem trend_aggregation (rows : List NormResult) (c : Criteria) :
    ((trendDf (filteredResults rows c)).map pointKey).Nodup ∧
    (∀ k : TKey, k ∈ (trendDf (filteredResults rows c)).map pointKey ↔
        k ∈ (filteredResults rows c).map rowKey) ∧
    (∀ p ∈ trendDf (filteredResults rows c),
        p.meanValue * (((filteredResults rows c).filter
            (fun r => decide (rowKey r = pointKey p))).length : Rat)
          = (((filteredResults rows c).filter
              (fun r => decide (rowKey r = pointKey p))).filterMap (fun r => r.value)).sum) ∧
    ((trendDf (filteredResults rows c)).map
        (fun p => ((filteredResults rows c).filter
          (fun r => decide (rowKey r = pointKey p))).length)).sum
      = (filteredResults rows c).length := by
  have hperm : (List.insertionSort keyLE (pdUnique ((filteredResults rows c).map rowKey))).Perm
      ((filteredResults rows c).map rowKey).dedup :=
    (List.perm_insertionSort keyLE _).trans (pdUnique_perm_dedup _)
  refine ⟨?_, ?_, ?_, ?_⟩
  · rw [trendDf_map_pointKey]
    exact ((List.perm_insertionSort keyLE _).nodup_iff).mpr (nodup_pdUnique _)
  · intro k
    rw [trendDf_map_pointKey, (List.perm_insertionSort keyLE _).mem_iff, mem_pdUnique]
  · intro p hp
    rw [trendDf] at hp
    rcases List.mem_map.mp hp with ⟨k, hk, rfl⟩
    rw [pointKey_mkPoint]
    have hkmem : k ∈ (filteredResults rows c).map rowKey := by
      have h1 := (List.perm_insertionSort keyLE
        (pdUnique ((filteredResults rows c).map rowKey))).mem_iff.mp hk
      exact (mem_pdUnique _ _).mp h1
    rcases List.mem_map.mp hkmem with ⟨r, hr, hrk⟩
    have hrg : r ∈ (filteredResults rows c).filter (fun r => decide (rowKey r = k)) :=
      List.mem_filter.mpr ⟨hr, by simp [hrk]⟩
    have hlenpos : ((filteredResults rows c).filter
        (fun r => decide (rowKey r = k))).length ≠ 0 := by
      have := List.length_pos.mpr (List.ne_nil_of_mem hrg)
      omega
    have hvals : ∀ x ∈ (filteredResults rows c).filter (fun r => decide (rowKey r = k)),
        (x.value).isSome = true := by
      intro x hx
      exact mem_filtered_value_isSome rows c x (List.mem_of_mem_filter hx)
    have hlen := length_filterMap_value _ hvals
    show groupMean _ * _ = _
    rw [groupMean]
    rw [hlen]
    exact div_mul_cancel₀ _ (by exact_mod_cast hlenpos)
  · rw [trendDf, List.map_map]
    have hcongr : ∀ k ∈ List.insertionSort keyLE
        (pdUnique ((filteredResults rows c).map rowKey)),
        ((fun p => ((filteredResults rows c).filter
            (fun r => decide (rowKey r = pointKey p))).length) ∘
          mkPoint (filteredResults rows c)) k
          = (((filteredResults rows c).map rowKey).filter
              (fun x => decide (x = k))).length := by
      intro k hk
      simp only [Function.comp_apply, pointKey_mkPoint]
      exact length_filter_rowKey _ k
    rw [List.map_congr_left hcongr]
    rw [(hperm.map (fun k => (((filteredResults rows c).map rowKey).filter
      (fun x => decide (x = k))).length)).sum_eq]
    rw [sum_filter_dedup_length, List.length_map]

/-- Scenario-E rows for the C3 witness: same station, same month, values
4 and 6. -/
def c3wRows : List NormResult :=
  [⟨"S1", some ("Lead"), some 4, some ⟨2020, 1, 10⟩⟩,
   ⟨"S1", some ("Lead"), some 6, some ⟨2020, 1, 20⟩⟩]

/-- Criteria for the C3 witness. -/
def c3wCrit : Criteria := ⟨"Lead", 0, 10, ⟨2020, 1, 1⟩, ⟨2020, 2, 28⟩⟩

set_option maxRecDepth 8000 in
/-- Claim C3, witness: scenario E evaluated — two same-station same-month
rows with values 4 and 6 produce the single trend point with mean 5 — and
the aggregation theorem applied at this instance. -/
theorem trend_aggregation_wit :
    trendDf (filteredResults c3wRows c3wCrit) = [⟨"S1", ⟨2020, 1, 1⟩, 5⟩] ∧
    ((trendDf (filteredResults c3wRows c3wCrit)).map pointKey).Nodup :=
  ⟨by with_unfolding_all decide, (trend_aggregation c3wRows c3wCrit).1⟩

/-- Input for the C4 counterexample: one station row whose latitude cell
parses to positive infinity (as `pandas.to_numeric` does for a cell such
as "inf"), which is not NaN and therefore survives the `dropna` of
line 30. -/
def c4xCsv : StationCSV :=
  ⟨true, true, true, true,
    [⟨some ("S1"), some ("Alpha"), some PdNum.posInf, some (PdNum.finite 5)⟩]⟩

/-- The normalized output of the C4 counterexample. -/
def c4xOut : List NormStation := [⟨"S1", PdNum.posInf, PdNum.finite 5⟩]

/-- Claim C4, counterexample: normalization keeps a station row whose
latitude is positive infinity — only NaN coordinates are dropped — so the
normalized table contains a record with a non-finite latitude, refuting
the claim that every StationRecord has finite coordinates and that every
input row failing that condition is dropped. -/
theorem station_finiteness_cx :
    normalizeStations c4xCsv = Except.ok c4xOut ∧
    PdNum.isFinite (⟨"S1", PdNum.posInf, PdNum.finite 5⟩ : NormStation).lat = false :=
  ⟨rfl, rfl⟩

/-- Claim C4 (amended): under the pandas CSV reading convention that a
present string cell is non-empty (`read_csv` turns empty fields into NaN),
every record of the normalized station table has an identifier that is a
non-empty string and coordinates taken from an input row where both were
present (non-missing, though possibly infinite — `to_numeric` parses "inf"
cells to infinities and only NaN is dropped); and exactly the input rows
with both coordinates present survive — rows with a missing coordinate
are dropped. -/
theorem station_normalization_invariant (t : StationCSV) (out : List NormStation)
    (hcells : ∀ row ∈ t.rows, row.ident ≠ some ("") ∧ row.name ≠ some (""))
    (hok : normalizeStations t = Except.ok out) :
    (∀ rec ∈ out, rec.ident ≠ "") ∧
    out.length = (t.rows.filter coordsPresent).length ∧
    (∀ rec ∈ out, ∃ row, row ∈ t.rows ∧
      row.lat = some rec.lat ∧ row.lon = some rec.lon) := by
  unfold normalizeStations at hok
  rcases Bool.eq_false_or_eq_true (t.hasLat && t.hasLon) with hco | hco
  · rcases Bool.eq_false_or_eq_true t.hasIdent with hI | hI
    · simp only [hco, hI, if_true, Except.ok.injEq] at hok
      subst hok
      refine ⟨?_, by simp, ?_⟩
      · intro rec hrec
        rcases List.mem_map.mp hrec with ⟨row, hrow, rfl⟩
        cases hri : row.ident with
        | none => simp [astypeStr, hri]
        | some s =>
          have hcell := (hcells row (List.mem_of_mem_filter hrow)).1
          simp only [astypeStr, hri]
          intro hsempty
          exact hcell (by rw [hri, hsempty])
      · intro rec hrec
        rcases List.mem_map.mp hrec with ⟨row, hrow, rfl⟩
        have hcp := (List.mem_filter.mp hrow).2
        rw [coordsPresent, Bool.and_eq_true] at hcp
        cases hla : row.lat with
        | none => rw [hla] at hcp; simp at hcp
        | some a =>
          cases hlo : row.lon with
          | none => rw [hlo] at hcp; simp at hcp
          | some b =>
            exact ⟨row, List.mem_of_mem_filter hrow, by simp [hla], by simp [hlo]⟩
    · rcases Bool.eq_false_or_eq_true t.hasName with hN | hN
      · simp only [hco, hI, hN, if_true, Bool.false_eq_true, if_false, Except.ok.injEq] at hok
        subst hok
        refine ⟨?_, by simp, ?_⟩
        · intro rec hrec
          rcases List.mem_map.mp hrec with ⟨row, hrow, rfl⟩
          cases hri : row.name with
          | none => simp [astypeStr, hri]
          | some s =>
            have hcell := (hcells row (List.mem_of_mem_filter hrow)).2
            simp only [astypeStr, hri]
            intro hsempty
            exact hcell (by rw [hri, hsempty])
        · intro rec hrec
          rcases List.mem_map.mp hrec with ⟨row, hrow, rfl⟩
          have hcp := (List.mem_filter.mp hrow).2
          rw [coordsPresent, Bool.and_eq_true] at hcp
          cases hla : row.lat with
          | none => rw [hla] at hcp; simp at hcp
          | some a =>
            cases hlo : row.lon with
            | none => rw [hlo] at hcp; simp at hcp
            | some b =>
              exact ⟨row, List.mem_of_mem_filter hrow, by simp [hla], by simp [hlo]⟩
      · simp [hco, hI, hN] at hok
  · simp [hco] at hok

/-- Station CSV for the C4 witness: one complete row and one row with a
missing latitude, which normalization must drop. -/
def c4wCsv : StationCSV :=
  ⟨true, true, true, true,
    [⟨some ("S1"), some ("Alpha"), some (PdNum.finite 40), some (PdNum.finite (-74))⟩,
     ⟨some ("S2"), some ("Beta"), none, some (PdNum.finite 5)⟩]⟩

/-- The normalized station table of the C4 witness. -/
def c4wOut : List NormStation := [⟨"S1", PdNum.finite 40, PdNum.finite (-74)⟩]

/-- Claim C4, witness: the invariant theorem applied at a concrete table;
the dropped-row count equation evaluated there. -/
theorem station_normalization_invariant_wit :
    c4wOut.length = (c4wCsv.rows.filter coordsPresent).length :=
  (station_normalization_invariant c4wCsv c4wOut (by decide) rfl).2.1

/-- Claim C5: the default value-range bounds are the minimum and maximum of
the present measured values among contaminant-matched rows, computed before
any date filtering; when no such value exists they default to [0, 1]. -/
theorem default_value_range_correct (rows : List NormResult) (pat : String) :
    (valueSeries rows pat = [] → defaultValueRange rows pat = (0, 1)) ∧
    (valueSeries rows pat ≠ [] →
      (defaultValueRange rows pat).1 ∈ valueSeries rows pat ∧
      (defaultValueRange rows pat).2 ∈ valueSeries rows pat ∧
      ∀ v ∈ valueSeries rows pat,
        (defaultValueRange rows pat).1 ≤ v ∧ v ≤ (defaultValueRange rows pat).2) := by
  constructor
  · intro hnil
    simp only [defaultValueRange, hnil, ratMinL, ratMaxL]
  · intro hne
    cases hmin : ratMinL (valueSeries rows pat) with
    | none => exact absurd ((ratMinL_eq_none _).mp hmin) hne
    | some a =>
      cases hmax : ratMaxL (valueSeries rows pat) with
      | none => exact absurd ((ratMaxL_eq_none _).mp hmax) hne
      | some b =>
        have hdef : defaultValueRange rows pat = (a, b) := by
          simp only [defaultValueRange, hmin, hmax]
        rw [hdef]
        have hmins := ratMinL_spec _ a hmin
        have hmaxs := ratMaxL_spec _ b hmax
        exact ⟨hmins.1, hmaxs.1, fun v hv => ⟨hmins.2 v hv, hmaxs.2 v hv⟩⟩

/-- Rows for the C5 witness. -/
def c5wRows : List NormResult :=
  [⟨"S1", some ("Lead"), some 7, some ⟨2020, 1, 10⟩⟩,
   ⟨"S1", some ("Lead"), some 2, none⟩,
   ⟨"S2", some ("Zinc"), some 9, some ⟨2020, 3, 1⟩⟩]

/-- Claim C5, witness: the lower default bound is one of the present
contaminant-matched values at a concrete instance (here the value 2 of a
row whose date is missing still participates, since the bounds are computed
before date filtering). -/
theorem default_value_range_correct_wit :
    (defaultValueRange c5wRows ("Lead")).1 ∈ valueSeries c5wRows ("Lead") :=
  ((default_value_range_correct c5wRows ("Lead")).2 (by decide)).1

/-- Claim C6: the default date-range bounds are the minimum and maximum of
the present observation dates within the contaminant- and value-filtered
set; when that set is empty both bounds default to the current date. -/
theorem default_date_range_correct (rows : List NormResult) (pat : String) (today : Date) :
    (dateSeries rows pat = [] → defaultDateRange rows pat today = (today, today)) ∧
    (dateSeries rows pat ≠ [] →
      (defaultDateRange rows pat today).1 ∈ dateSeries rows pat ∧
      (defaultDateRange rows pat today).2 ∈ dateSeries rows pat ∧
      ∀ d ∈ dateSeries rows pat,
        dateLe (defaultDateRange rows pat today).1 d = true ∧
        dateLe d (defaultDateRange rows pat today).2 = true) := by
  constructor
  · intro hnil
    simp only [defaultDateRange, hnil, dateMinL, dateMaxL]
  · intro hne
    cases hmin : dateMinL (dateSeries rows pat) with
    | none => exact absurd ((dateMinL_eq_none _).mp hmin) hne
    | some a =>
      cases hmax : dateMaxL (dateSeries rows pat) with
      | none => exact absurd ((dateMaxL_eq_none _).mp hmax) hne
      | some b =>
        have hdef : defaultDateRange rows pat today = (a, b) := by
          simp only [defaultDateRange, hmin, hmax]
        rw [hdef]
        have hmins := dateMinL_spec _ a hmin
        have hmaxs := dateMaxL_spec _ b hmax
        exact ⟨hmins.1, hmaxs.1, fun d hd => ⟨hmins.2 d hd, hmaxs.2 d hd⟩⟩

/-- Rows for the C6 witness. -/
def c6wRows : List NormResult :=
  [⟨"S1", some ("Lead"), some 7, some ⟨2020, 1, 10⟩⟩,
   ⟨"S1", some ("Lead"), some 3, some ⟨2019, 11, 2⟩⟩]

/-- Claim C6, witness: the lower default bound is one of the dates of the
contaminant- and value-filtered set at a concrete instance. -/
theorem default_date_range_correct_wit :
    (defaultDateRange c6wRows ("Lead") ⟨2026, 10, 12⟩).1 ∈ dateSeries c6wRows ("Lead") :=
  ((default_date_range_correct c6wRows ("Lead") ⟨2026, 10, 12⟩).2 (by decide)).1

/-- Claim C7: when a required column is missing from either input table,
the pipeline stops with a SchemaError carrying the specific missing-column
message, and produces no outputs (the run is an `Except.error`, which
carries neither a station subset nor a trend table). -/
theorem schema_error_halts (s : StationCSV) (r : ResultsCSV) (c : Criteria)
    (h : s.hasLat = false ∨ s.hasLon = false ∨
      (s.hasIdent = false ∧ s.hasName = false) ∨ r.hasDate = false ∨
      r.hasIdent = false ∨ r.hasCharacteristic = false ∨ r.hasValue = false) :
    ∃ msg, runAll s r c = Except.error (AppError.schemaError msg) := by
  rcases hs : normalizeStations s with e | stations
  · cases e with
    | schemaError m => exact ⟨m, by simp [runAll, hs]⟩
  · rcases hr : normalizeResults r with e | results
    · cases e with
      | schemaError m => exact ⟨m, by simp [runAll, hs, hr]⟩
    · have hsf := normalizeStations_ok_flags s stations hs
      have hrf := normalizeResults_ok_flags r results hr
      rcases Bool.eq_false_or_eq_true r.hasCharacteristic with hc | hc
      · rcases Bool.eq_false_or_eq_true r.hasValue with hv | hv
        · exfalso
          rcases h with h | h | h | h | h | h | h
          · simp [hsf.1] at h
          · simp [hsf.2.1] at h
          · rcases hsf.2.2 with hI | hN
            · simp [hI] at h
            · simp [hN] at h
          · simp [hrf.1] at h
          · simp [hrf.2] at h
          · simp [hc] at h
          · simp [hv] at h
        · exact ⟨"Test results database must contain 'ResultMeasureValue'.",
            by simp [runAll, hs, hr, hc, hv]⟩
      · exact ⟨"Test results database must contain 'CharacteristicName'.",
          by simp [runAll, hs, hr, hc]⟩

/-- Station CSV for the C7 witness: scenario D, the latitude column is
missing. -/
def c7wStations : StationCSV :=
  ⟨true, true, false, true,
    [⟨some ("S1"), some ("Alpha"), some (PdNum.finite 40), some (PdNum.finite (-74))⟩]⟩

/-- Results CSV for the C7 witness. -/
def c7wResults : ResultsCSV :=
  ⟨true, true, true, true, [⟨some ("S1"), some ("Lead"), some 5, some ⟨2020, 1, 15⟩⟩]⟩

/-- Criteria for the C7 witness. -/
def c7wCrit : Criteria := ⟨"Lead", 0, 10, ⟨2020, 1, 1⟩, ⟨2020, 12, 31⟩⟩

/-- Claim C7, witness: scenario D — a station table without its latitude
column makes the whole pipeline fail with a SchemaError. -/
theorem schema_error_halts_wit :
    c7wStations.hasLat = false ∧
    ∃ msg, runAll c7wStations c7wResults c7wCrit
      = Except.error (AppError.schemaError msg) :=
  ⟨rfl, schema_error_halts c7wStations c7wResults c7wCrit (Or.inl rfl)⟩

/-- Claim C8: a filter/join/aggregate run never mutates the loaded tables —
the state after any run with any criteria equals the state before it; the
derived views are built from a fresh copy (line 68 `.copy()`). -/
theorem pipeline_no_mutation (st : PipeState) (c : Criteria) :
    (runFilters st c).2 = st :=
  rfl

/-- Claim C9: the pipeline is deterministic — two runs on equal loaded
tables and equal criteria produce equal outputs (filtered results, station
subset and trend table) — and the filtered result set is a sublist of the
loaded results table, i.e. it keeps the original input order. -/
theorem pipeline_deterministic (st1 st2 : PipeState) (c1 c2 : Criteria)
    (hst : st1 = st2) (hc : c1 = c2) :
    runFilters st1 c1 = runFilters st2 c2 ∧
      List.Sublist (runFilters st1 c1).1.filtered st1.resultsDf := by
  subst hst
  subst hc
  exact ⟨rfl, filteredResults_sublist st1.resultsDf c1⟩

/-- State for the C9 witness. -/
def c9wState : PipeState :=
  ⟨[⟨"S1", PdNum.finite 40, PdNum.finite (-74)⟩],
    [⟨"S1", some ("Lead"), some 5, some ⟨2020, 1, 15⟩⟩]⟩

/-- Criteria for the C9 witness. -/
def c9wCrit : Criteria := ⟨"Lead", 0, 10, ⟨2020, 1, 1⟩, ⟨2020, 12, 31⟩⟩

/-- Claim C9, witness: determinism and order preservation at a concrete
state and criteria. -/
theorem pipeline_deterministic_wit :
    runFilters c9wState c9wCrit = runFilters c9wState c9wCrit ∧
      List.Sublist (runFilters c9wState c9wCrit).1.filtered c9wState.resultsDf :=
  pipeline_deterministic c9wState c9wState c9wCrit c9wCrit rfl rfl
